import Mathlib

/-!
Shallow embedding of `crawlers/utils/cookiecloud_manager.py`
(class `CookieCloudManager`), the credential-synchronization core of the
repository: domain matching, TTL-bounded caching, config persistence and
the refresh-all orchestration.

Modelling conventions:
* Python strings are Lean `String`s; Python string primitives used by the
  source (`str.lower`, `in`, `str.lstrip('.')`, `str.endswith`) are
  translated as the `py*` helpers below.
* Python dicts that the source only reads/writes by key are insertion-ordered
  association lists (`List (String × _)`), with `List.lookup` for `get` and
  `dictSet` for item assignment (matching CPython's ordered-dict semantics:
  updating an existing key keeps its position, a new key is appended).
* `time.time()` values (floats) are modelled as integral seconds (`Int`);
  only comparisons and subtraction are performed on them in the source.
* The remote client call `self.client.get_decrypted_data()` is an external
  collaborator; its outcome is passed in as a `FetchOutcome` argument
  (success with data, a falsy result, or a raised exception).
* The on-disk YAML config files are modelled over a restricted value
  universe (strings and string-keyed maps, which is all the source touches:
  `config['TokenManager'][p]['headers']['Cookie']`), with a concrete
  serializer `yamlDump` (flow style rather than PyYAML block style) and a
  concrete parser `yamlLoad` that inverts it; `yaml.safe_load` failures are
  `none`.
* A file write (`open(path, 'w')` followed by `yaml.dump`) truncates the
  file and then streams the new content; a simulated write failure after
  `k` characters (`writeFailAfter = some k`) leaves the first `k`
  characters of the new content on disk, exactly as an in-place truncating
  write does.
-/

/-- Python `s.lower()` restricted to what `Char.toLower` covers. -/
def pyLower (s : String) : String := ⟨s.data.map Char.toLower⟩

/-- Executable substring test on character lists (Python `needle in haystack`). -/
def isInfixB (needle : List Char) : List Char → Bool
  | [] => needle.isEmpty
  | a :: rest => needle.isPrefixOf (a :: rest) || isInfixB needle rest

/-- Python `needle in haystack` on strings. -/
def pyIn (needle haystack : String) : Bool := isInfixB needle.data haystack.data

/-- Python `s.lstrip('.')`: drop every leading dot. -/
def pyLstripDots (s : String) : String := ⟨s.data.dropWhile (fun c => c == '.')⟩

/-- Python `s.endswith(suffixStr)`. -/
def pyEndsWith (s suffixStr : String) : Bool := suffixStr.data.isSuffixOf s.data

/-- One decrypted cookie record as consumed by the source
(`cookie.get('name', '')`, `cookie.get('value', '')`, `cookie.get('domain', '')`);
a missing key is the empty string. -/
structure CookieRecord where
  name : String
  value : String
  domain : String
deriving DecidableEq

/-- One value of the decrypted data mapping: either a list of cookie records
or some non-list value (the source guards with `isinstance(cookie_list, list)`). -/
inductive CookieValue where
  | records (cookieList : List CookieRecord)
  | other
deriving DecidableEq

/-- The full decrypted data: `domain key → value`, insertion ordered. -/
abbrev AllCookies := List (String × CookieValue)

/-- Outcome of `self.client.get_decrypted_data()` inside the `try` block:
data, a falsy return value (`if not all_cookies`), or a raised exception. -/
inductive FetchOutcome where
  | ok (data : AllCookies)
  | failure
  | raises
deriving DecidableEq

/-- Python dict item assignment `d[k] = v` on an ordered association list. -/
def dictSet {α : Type} (k : String) (v : α) : List (String × α) → List (String × α)
  | [] => [(k, v)]
  | (k', v') :: rest => if k' == k then (k, v) :: rest else (k', v') :: dictSet k v rest

/-- The mutable state of a `CookieCloudManager` instance, restricted to the
fields the modelled methods read or write. -/
structure ManagerState where
  /-- Field `self.enabled`. -/
  enabled : Bool
  /-- Field `self.client is not None` (`if not self.client`). -/
  clientInitialized : Bool
  /-- Field `self.cache_ttl` (seconds). -/
  cacheTtl : Int
  /-- Field `self.domain_mapping`. -/
  domainMapping : List (String × String)
  /-- Field `self.cache`. -/
  cache : List (String × String)
  /-- Field `self.cache_timestamps`. -/
  cacheTimestamps : List (String × Int)
deriving DecidableEq

/-- Model of `CookieCloudManager._is_cache_valid` (lines 141-149). -/
def isCacheValid (st : ManagerState) (platform : String) (now : Int) : Bool :=
  match st.cacheTimestamps.lookup platform with
  | none => false
  | some cacheTime => decide (now - cacheTime < st.cacheTtl)

/-- Model of `CookieCloudManager._get_domain_for_platform` (lines 151-153):
`self.domain_mapping.get(platform, f"{platform}.com")`. -/
def getDomainForPlatform (st : ManagerState) (platform : String) : String :=
  (st.domainMapping.lookup platform).getD (platform ++ ".com")

/-- Model of `CookieCloudManager._format_cookies_for_requests` (lines 155-167). -/
def formatCookiesForRequests (cookies : List CookieRecord) : String :=
  if cookies.isEmpty then ""
  else
    let cookiePairs := cookies.foldl
      (fun acc c =>
        if !c.name.isEmpty && !c.value.isEmpty then acc ++ [c.name ++ "=" ++ c.value]
        else acc)
      []
    "; ".intercalate cookiePairs

/-- The inline domain-matching condition of `get_cookies` (lines 214-221):
`cookie_domain = cookie.get('domain', '').lower()` followed by the
five-way disjunction against `target_domain`. -/
def domainMatches (targetDomain rawDomain : String) : Bool :=
  let cookieDomain := pyLower rawDomain
  cookieDomain == targetDomain ||
  cookieDomain == "." ++ targetDomain ||
  pyIn targetDomain cookieDomain ||
  pyLstripDots cookieDomain == targetDomain ||
  pyEndsWith targetDomain (pyLstripDots cookieDomain)

/-- The matching loop of `get_cookies` (lines 207-222): walk the decrypted
data in order, skip the `update_time` key and non-list values, and append
every record whose domain matches. -/
def collectMatched (targetDomain : String) (allCookies : AllCookies) : List CookieRecord :=
  allCookies.foldl
    (fun matched entry =>
      if entry.fst == "update_time" then matched
      else
        match entry.snd with
        | .other => matched
        | .records cookieList =>
          matched ++ cookieList.filter (fun c => domainMatches targetDomain c.domain))
    []

/-- Model of `CookieCloudManager.get_cookies` (lines 169-241). Returns the result of
the call together with the post-call state. -/
def getCookies (st : ManagerState) (platform : String) (forceRefresh : Bool) (now : Int)
    (fetch : FetchOutcome) : Option String × ManagerState :=
  if !st.enabled then (none, st)
  else if !forceRefresh && isCacheValid st platform now then (st.cache.lookup platform, st)
  else if !st.clientInitialized then (none, st)
  else
    match fetch with
    | .raises => (none, st)
    | .failure => (none, st)
    | .ok allCookies =>
      if allCookies.isEmpty then (none, st)
      else
        let targetDomain := getDomainForPlatform st platform
        let matchedCookies := collectMatched targetDomain allCookies
        if matchedCookies.isEmpty then (none, st)
        else
          let cookieString := formatCookiesForRequests matchedCookies
          (some cookieString,
            { st with
              cache := dictSet platform cookieString st.cache
              cacheTimestamps := dictSet platform now st.cacheTimestamps })

/-- YAML values as manipulated by `update_config_file`: strings and
string-keyed mappings (the only shapes the source reads or writes). -/
inductive Yaml where
  | str (s : String)
  | map (entries : List (String × Yaml))

mutual

/-- Model of `yaml.dump` on the restricted value universe (flow style). -/
def yamlDump : Yaml → String
  | .str s => "\"" ++ s ++ "\""
  | .map entries => "\x7b" ++ yamlDumpEntries entries ++ "\x7d"

/-- Serialize the entries of a mapping, comma separated. -/
def yamlDumpEntries : List (String × Yaml) → String
  | [] => ""
  | [(k, v)] => k ++ ": " ++ yamlDump v
  | (k, v) :: rest => k ++ ": " ++ yamlDump v ++ ", " ++ yamlDumpEntries rest

end

/-- Characters strictly before the first occurrence of `target`, plus the
remainder after it; `none` when `target` does not occur. -/
def takeUntilChar (target : Char) : List Char → Option (List Char × List Char)
  | [] => none
  | c :: rest =>
    if c == target then some ([], rest)
    else
      match takeUntilChar target rest with
      | none => none
      | some (pre, post) => some (c :: pre, post)

mutual

/-- Fuel-bounded parser for `yamlDump`'s output (model of `yaml.safe_load`
on the restricted universe; any other input is a parse failure). -/
def parseYamlVal : Nat → List Char → Option (Yaml × List Char)
  | 0, _ => none
  | _ + 1, [] => none
  | fuel + 1, c :: rest =>
    if c == '"' then
      match takeUntilChar '"' rest with
      | none => none
      | some (strChars, rest') => some (.str ⟨strChars⟩, rest')
    else if c == '{' then
      match rest with
      | '}' :: rest' => some (.map [], rest')
      | _ => parseYamlEntries fuel rest
    else none

/-- Parse one or more `key: value` entries followed by a closing brace. -/
def parseYamlEntries : Nat → List Char → Option (Yaml × List Char)
  | 0, _ => none
  | fuel + 1, cs =>
    match takeUntilChar ':' cs with
    | none => none
    | some (keyChars, rest) =>
      match rest with
      | ' ' :: rest' =>
        match parseYamlVal fuel rest' with
        | none => none
        | some (v, rest'') =>
          match rest'' with
          | '}' :: rest3 => some (.map [(⟨keyChars⟩, v)], rest3)
          | ',' :: ' ' :: rest3 =>
            match parseYamlEntries fuel rest3 with
            | some (.map entries, rest4) => some (.map ((⟨keyChars⟩, v) :: entries), rest4)
            | _ => none
          | _ => none
      | _ => none

end

/-- Model of `yaml.safe_load` over file content: parse failures (including
a `None` document whose later subscripting raises) are `none`. -/
def yamlLoad (s : String) : Option Yaml :=
  match parseYamlVal (2 * s.length + 2) s.data with
  | some (y, []) => some y
  | _ => none

/-- Nested item assignment `cfg[k1][k2]...[kn] = value`: every key but the
last is a lookup (a missing key raises `KeyError`, a non-mapping raises
`TypeError`, both caught by the source's `except`, hence `none`); the last
key is a dict item assignment. -/
def yamlSetPath : Yaml → List String → String → Option Yaml
  | _, [], _ => none
  | cfg, [key], cookie =>
    match cfg with
    | .map entries => some (.map (dictSet key (.str cookie) entries))
    | .str _ => none
  | cfg, key :: rest, cookie =>
    match cfg with
    | .map entries =>
      match entries.lookup key with
      | none => none
      | some sub =>
        match yamlSetPath sub rest cookie with
        | none => none
        | some sub' => some (.map (dictSet key sub' entries))
    | .str _ => none

/-- The `config_file_map` literal of `update_config_file` (lines 256-262):
per-platform config file paths (relative to the project root). -/
def configFileMap (platform : String) : Option String :=
  if platform == "douyin" then some "crawlers/douyin/web/config.yaml"
  else if platform == "tiktok" then some "crawlers/tiktok/web/config.yaml"
  else if platform == "bilibili" then some "crawlers/bilibili/web/config.yaml"
  else none

/-- The `if/elif` cookie-field update of `update_config_file` (lines 272-277);
the final `else` (unreachable through `config_file_map`) leaves the parsed
config unchanged, as the source does. -/
def setCookieInConfig (platform : String) (cfg : Yaml) (cookie : String) : Option Yaml :=
  if platform == "douyin" then
    yamlSetPath cfg ["TokenManager", "douyin", "headers", "Cookie"] cookie
  else if platform == "tiktok" then
    yamlSetPath cfg ["TokenManager", "tiktok", "headers", "Cookie"] cookie
  else if platform == "bilibili" then
    yamlSetPath cfg ["TokenManager", "bilibili", "headers", "cookie"] cookie
  else some cfg

/-- The file system: path → file content. -/
abbrev Fs := List (String × String)

/-- Model of `CookieCloudManager.update_config_file` (lines 243-289). A missing map
entry or missing file returns `False` untouched; a parse or field-path
failure is caught by the `except` and returns `False` untouched; the final
write opens the file in truncate mode and streams `yaml.dump` output, so a
simulated failure after `k` characters (`writeFailAfter = some k`) leaves
the first `k` characters of the new serialization on disk and returns
`False` through the `except` handler. -/
def updateConfigFile (fs : Fs) (platform cookie : String) (writeFailAfter : Option Nat) :
    Bool × Fs :=
  match configFileMap platform with
  | none => (false, fs)
  | some configFile =>
    match fs.lookup configFile with
    | none => (false, fs)
    | some content =>
      match yamlLoad content with
      | none => (false, fs)
      | some platformConfig =>
        match setCookieInConfig platform platformConfig cookie with
        | none => (false, fs)
        | some updated =>
          let newContent := yamlDump updated
          match writeFailAfter with
          | none => (true, dictSet configFile newContent fs)
          | some k => (false, dictSet configFile (newContent.take k) fs)

/-- The loop body of `refresh_all_cookies` (lines 300-317), iterating the
remaining platforms: force-refresh the cookie, then (Python truthiness:
`if cookie:` is false for both `None` and `""`) persist it and record the
per-platform outcome. -/
def refreshLoop (now : Int) (fetch : String → FetchOutcome) (writeFail : String → Option Nat) :
    List (String × String) → ManagerState → Fs → List (String × Bool) →
    List (String × Bool) × ManagerState × Fs
  | [], st, fs, results => (results, st, fs)
  | (platform, _) :: rest, st, fs, results =>
    match getCookies st platform true now (fetch platform) with
    | (some cookie, st') =>
      if cookie.isEmpty then
        refreshLoop now fetch writeFail rest st' fs (results ++ [(platform, false)])
      else
        match updateConfigFile fs platform cookie (writeFail platform) with
        | (success, fs') =>
          refreshLoop now fetch writeFail rest st' fs' (results ++ [(platform, success)])
    | (none, st') =>
      refreshLoop now fetch writeFail rest st' fs (results ++ [(platform, false)])

/-- Model of `CookieCloudManager.refresh_all_cookies` (lines 291-319): iterate
`self.domain_mapping.keys()` and collect per-platform outcomes. -/
def refreshAllCookies (st : ManagerState) (fs : Fs) (now : Int)
    (fetch : String → FetchOutcome) (writeFail : String → Option Nat) :
    List (String × Bool) × ManagerState × Fs :=
  refreshLoop now fetch writeFail st.domainMapping st fs []

/-- The outcome recorded for one platform by `refresh_all_cookies`, computed
from the pre-loop state: forced resolution, Python-truthiness check, persist. -/
def refreshOneSuccess (st : ManagerState) (fs : Fs) (now : Int)
    (fetch : String → FetchOutcome) (writeFail : String → Option Nat)
    (platform : String) : Bool :=
  match (getCookies st platform true now (fetch platform)).fst with
  | none => false
  | some cookie =>
    if cookie.isEmpty then false
    else (updateConfigFile fs platform cookie (writeFail platform)).fst

/-- Strip at most one leading dot; rendering of the claim wording
"d with one leading dot stripped" (the source's `lstrip('.')` strips all). -/
def specStripOneLeadingDot (s : String) : String :=
  match s.data with
  | '.' :: rest => ⟨rest⟩
  | _ => s

/-- The domain-matching rule exactly as the claim words it: every comparison
case-insensitive, i.e. both the record domain and the target lowercased. -/
def claimDomainMatches (d t : String) : Bool :=
  let dl := pyLower d
  let tl := pyLower t
  dl == tl ||
  dl == "." ++ tl ||
  pyIn tl dl ||
  specStripOneLeadingDot dl == tl ||
  pyEndsWith tl (pyLstripDots dl)

/-- A concrete enabled manager state with one mapped platform. -/
def stExample : ManagerState :=
  { enabled := true
    clientInitialized := true
    cacheTtl := 3600
    domainMapping := [("douyin", "douyin.com")]
    cache := []
    cacheTimestamps := [] }

/-- A concrete enabled manager state with an empty platform mapping. -/
def stUnmapped : ManagerState :=
  { enabled := true
    clientInitialized := true
    cacheTtl := 3600
    domainMapping := []
    cache := []
    cacheTimestamps := [] }

/-- A concrete decrypted data set holding one douyin.com cookie. -/
def sampleFetchData : AllCookies :=
  [("douyin.com", .records [{ name := "n", value := "v", domain := "douyin.com" }])]

/-- A concrete parsed douyin web config with the documented cookie path. -/
def douyinConfigY : Yaml :=
  .map [("TokenManager", .map [("douyin", .map [("headers",
    .map [("Cookie", .str "oldcookie"), ("User-Agent", .str "UA")])])])]

/-- The douyin config file path used by `update_config_file`. -/
def douyinConfigPath : String := "crawlers/douyin/web/config.yaml"

/-- A concrete file system holding the serialized douyin config. -/
def fsExample : Fs := [(douyinConfigPath, yamlDump douyinConfigY)]

/-! ## Helper lemmas -/

theorem lookup_dictSet_self {α : Type} (k : String) (v : α) (l : List (String × α)) :
    (dictSet k v l).lookup k = some v := by
  induction l with
  | nil => simp [dictSet, List.lookup]
  | cons kv rest ih =>
    obtain ⟨k', v'⟩ := kv
    by_cases hk : k' = k
    · simp [dictSet, hk, List.lookup]
    · have hb : (k == k') = false := by
        simp [Ne.symm hk]
      simp [dictSet, hk, List.lookup, hb, ih]

theorem lookup_dictSet_ne {α : Type} (k q : String) (v : α) (l : List (String × α))
    (h : q ≠ k) : (dictSet k v l).lookup q = l.lookup q := by
  have hqk : (q == k) = false := by
    simp [h]
  induction l with
  | nil => simp [dictSet, List.lookup, hqk]
  | cons kv rest ih =>
    obtain ⟨k', v'⟩ := kv
    by_cases hk : k' = k
    · subst hk
      simp [dictSet, List.lookup, hqk]
    · simp [dictSet, hk, List.lookup, ih]

theorem isPrefixOf_iff_append (n h : List Char) :
    n.isPrefixOf h = true ↔ ∃ r, h = n ++ r := by
  induction n generalizing h with
  | nil => simp
  | cons a n ih =>
    cases h with
    | nil => simp [List.isPrefixOf]
    | cons b t =>
      simp only [List.isPrefixOf, Bool.and_eq_true, beq_iff_eq, ih, List.cons_append]
      constructor
      · rintro ⟨rfl, r, rfl⟩
        exact ⟨r, rfl⟩
      · rintro ⟨r, heq⟩
        injection heq with h1 h2
        exact ⟨h1.symm, r, h2⟩

theorem isInfixB_iff_append (n h : List Char) :
    isInfixB n h = true ↔ ∃ l r, h = l ++ n ++ r := by
  induction h with
  | nil =>
    simp only [isInfixB, List.isEmpty_iff]
    constructor
    · rintro rfl
      exact ⟨[], [], rfl⟩
    · rintro ⟨l, r, heq⟩
      rcases List.append_eq_nil.mp heq.symm with ⟨h1, h2⟩
      rcases List.append_eq_nil.mp h1 with ⟨-, h3⟩
      exact h3
  | cons a t ih =>
    simp only [isInfixB, Bool.or_eq_true, isPrefixOf_iff_append, ih]
    constructor
    · rintro (⟨r, heq⟩ | ⟨l, r, rfl⟩)
      · exact ⟨[], r, by simpa using heq⟩
      · exact ⟨a :: l, r, rfl⟩
    · rintro ⟨l, r, heq⟩
      cases l with
      | nil => exact Or.inl ⟨r, by simpa using heq⟩
      | cons x l' =>
        injection heq with h1 h2
        exact Or.inr ⟨l', r, h2⟩

theorem isSuffixOf_iff_append (n h : List Char) :
    n.isSuffixOf h = true ↔ ∃ l, h = l ++ n := by
  rw [List.isSuffixOf_iff_suffix]
  simp only [List.IsSuffix]
  constructor
  · rintro ⟨l, rfl⟩
    exact ⟨l, rfl⟩
  · rintro ⟨l, rfl⟩
    exact ⟨l, rfl⟩

theorem foldl_cookie_pairs (cookies : List CookieRecord) (acc : List String) :
    cookies.foldl
      (fun acc c =>
        if !c.name.isEmpty && !c.value.isEmpty then acc ++ [c.name ++ "=" ++ c.value]
        else acc)
      acc =
    acc ++ (cookies.filter (fun c => !c.name.isEmpty && !c.value.isEmpty)).map
      (fun c => c.name ++ "=" ++ c.value) := by
  induction cookies generalizing acc with
  | nil => simp
  | cons c rest ih =>
    by_cases hc : (!c.name.isEmpty && !c.value.isEmpty) = true
    · simp only [List.foldl_cons, List.filter_cons]
      rw [if_pos hc, if_pos hc, ih]
      simp
    · simp only [List.foldl_cons, List.filter_cons]
      rw [if_neg hc, if_neg hc, ih]

/-! ## Claim theorems -/

/-- Claim C4: a cache entry is reported valid iff its age is strictly below
the TTL (`now - fetchedAt < ttl`); a platform with no stored timestamp is
never valid (no witness timestamp exists). -/
theorem cache_valid_iff_age_lt_ttl (st : ManagerState) (platform : String) (now : Int) :
    isCacheValid st platform now = true ↔
      ∃ fetchedAt, st.cacheTimestamps.lookup platform = some fetchedAt ∧
        now - fetchedAt < st.cacheTtl := by
  unfold isCacheValid
  cases h : st.cacheTimestamps.lookup platform <;> simp [h]

/-- Claim C8: formatting renders exactly the records with non-empty name and
value as `name=value`, joined in order with `"; "`; on the empty list the
right-hand side is the empty string, and the function is total. -/
theorem format_cookies_characterization (cookies : List CookieRecord) :
    formatCookiesForRequests cookies =
      "; ".intercalate
        ((cookies.filter (fun c => !c.name.isEmpty && !c.value.isEmpty)).map
          (fun c => c.name ++ "=" ++ c.value)) := by
  unfold formatCookiesForRequests
  split
  · next h =>
    obtain rfl := List.isEmpty_iff.mp h
    rfl
  · simp only [foldl_cookie_pairs, List.nil_append]

/-- Claim C2, counterexample: the claim says the matcher rejects a record
with domain `"notbilibili.com"` for target `"bilibili.com"`, but the
substring clause (`target_domain in cookie_domain`) accepts it. -/
theorem bilibili_notbilibili_match_cex :
    domainMatches "bilibili.com" "notbilibili.com" = true := by decide

/-- Claim C2, amended: for target `"bilibili.com"` the matcher accepts
records with domain `"bilibili.com"`, `".bilibili.com"`,
`"live.bilibili.com"` and `"m.bilibili.com"`, and it also accepts
`"notbilibili.com"`, because `"bilibili.com"` is a substring of
`"notbilibili.com"`. -/
theorem bilibili_domain_examples_amended :
    domainMatches "bilibili.com" "bilibili.com" = true ∧
    domainMatches "bilibili.com" ".bilibili.com" = true ∧
    domainMatches "bilibili.com" "live.bilibili.com" = true ∧
    domainMatches "bilibili.com" "m.bilibili.com" = true ∧
    domainMatches "bilibili.com" "notbilibili.com" = true := by decide

/-- Claim C1: evaluation at the failing input. `update_config_file` locates
and parses the douyin config file successfully and resolves the field path,
then the write fails one character in (`writeFailAfter = some 1`); the call
reports failure but the on-disk file now holds the single character `{` —
a half-written state, not the prior content. -/
theorem update_config_midwrite_not_atomic :
    (updateConfigFile fsExample "douyin" "newcookie" (some 1)).fst = false ∧
    (updateConfigFile fsExample "douyin" "newcookie" (some 1)).snd.lookup douyinConfigPath =
      some "\x7b" ∧
    fsExample.lookup douyinConfigPath ≠ some "\x7b" := by decide

/-- Claim C3, counterexample: with an empty platform mapping, `"douyin"` is
absent from the mapping, yet `get_cookies` (via the `"douyin.com"` fallback
domain) creates a cache entry for it, and `update_config_file` still writes
its configuration file. -/
theorem unmapped_platform_cache_entry_cex :
    stUnmapped.domainMapping.lookup "douyin" = none ∧
    (getCookies stUnmapped "douyin" false 0 (.ok sampleFetchData)).snd.cache.lookup "douyin" =
      some "n=v" ∧
    (updateConfigFile fsExample "douyin" "c=1" none).snd.lookup douyinConfigPath ≠
      fsExample.lookup douyinConfigPath := by decide

/-- Claim C7, counterexample: the claim's rule is case-insensitive on both
sides, so for record domain `"a.com"` and target `"A.com"` it selects the
record; the code lowercases only the record's domain and compares the
target verbatim, so the matcher rejects it. -/
theorem domain_match_case_sensitivity_cex :
    claimDomainMatches "a.com" "A.com" = true ∧
    domainMatches "A.com" "a.com" = false := by decide

theorem lstripDots_data (s : String) :
    s.data = s.data.takeWhile (fun c => c == '.') ++ (pyLstripDots s).data :=
  (List.takeWhile_append_dropWhile (fun c => c == '.') s.data).symm

theorem specStripOne_cases (s t : String) (h : specStripOneLeadingDot s = t) :
    s = t ∨ s = "." ++ t := by
  unfold specStripOneLeadingDot at h
  split at h
  · next rest heq =>
    right
    apply String.ext
    rw [String.data_append, heq, ← h]
    rfl
  · next =>
    exact Or.inl h

/-- Claim C7, amended: a record with domain field `d` is selected for target
`t` iff, with `dl` the lowercased `d` and `t` compared as given (only the
record's domain is lowercased): `dl = t`, or `dl = "." ++ t`, or `t` is a
substring of `dl`, or `dl` with one leading dot stripped equals `t`, or `t`
ends with `dl` with all leading dots stripped. -/
theorem domain_match_characterization (d t : String) :
    domainMatches t d = true ↔
      (pyLower d = t ∨
       pyLower d = "." ++ t ∨
       (∃ l r, (pyLower d).data = l ++ t.data ++ r) ∨
       specStripOneLeadingDot (pyLower d) = t ∨
       ∃ l, t.data = l ++ (pyLstripDots (pyLower d)).data) := by
  have hunfold : domainMatches t d = true ↔
      (pyLower d = t ∨
       pyLower d = "." ++ t ∨
       (∃ l r, (pyLower d).data = l ++ t.data ++ r) ∨
       pyLstripDots (pyLower d) = t ∨
       ∃ l, t.data = l ++ (pyLstripDots (pyLower d)).data) := by
    simp only [domainMatches, Bool.or_eq_true, beq_iff_eq, pyIn, isInfixB_iff_append,
      pyEndsWith, isSuffixOf_iff_append, or_assoc]
  rw [hunfold]
  constructor
  · rintro (h | h | h | h | h)
    · exact Or.inl h
    · exact Or.inr (Or.inl h)
    · exact Or.inr (Or.inr (Or.inl h))
    · refine Or.inr (Or.inr (Or.inl ⟨(pyLower d).data.takeWhile (fun c => c == '.'), [], ?_⟩))
      rw [List.append_nil, ← h]
      exact lstripDots_data (pyLower d)
    · exact Or.inr (Or.inr (Or.inr (Or.inr h)))
  · rintro (h | h | h | h | h)
    · exact Or.inl h
    · exact Or.inr (Or.inl h)
    · exact Or.inr (Or.inr (Or.inl h))
    · rcases specStripOne_cases _ _ h with h1 | h1
      · exact Or.inl h1
      · exact Or.inr (Or.inl h1)
    · exact Or.inr (Or.inr (Or.inr (Or.inr h)))

/-- Claim C5: when a forced or cache-missing resolution fails — feature
disabled, client missing, the remote fetch raising, returning a falsy or
empty result, or no record matching the platform's target domain —
`get_cookies` returns `None` and the whole manager state (in particular the
cache and the cache timestamps of every platform) is left exactly as it
was, so a stale cached value is never erased. -/
theorem get_cookies_failure_frame (st : ManagerState) (p : String) (force : Bool)
    (now : Int) (fetch : FetchOutcome)
    (hmiss : force = true ∨ isCacheValid st p now = false)
    (hfail : st.enabled = false ∨ st.clientInitialized = false ∨
      fetch = .failure ∨ fetch = .raises ∨
      ∃ data, fetch = .ok data ∧
        (data = [] ∨ collectMatched (getDomainForPlatform st p) data = [])) :
    (getCookies st p force now fetch).fst = none ∧
    (getCookies st p force now fetch).snd = st := by
  have hcache : ¬(force = false ∧ isCacheValid st p now = true) := by
    rcases hmiss with rfl | hm
    · rintro ⟨hcontra, -⟩
      simp at hcontra
    · rintro ⟨-, hcontra⟩
      rw [hm] at hcontra
      simp at hcontra
  cases he : st.enabled with
  | false => simp [getCookies, he]
  | true =>
    cases hcl : st.clientInitialized with
    | false => simp [getCookies, he, hcache, hcl]
    | true =>
      rcases hfail with hf | hf | rfl | rfl | ⟨data, rfl, hd⟩
      · simp [he] at hf
      · simp [hcl] at hf
      · simp [getCookies, he, hcache, hcl]
      · simp [getCookies, he, hcache, hcl]
      · rcases hd with rfl | hm
        · simp [getCookies, he, hcache, hcl]
        · simp [getCookies, he, hcache, hcl, hm]

/-- Claim C5, witness: a concrete enabled state with a failing remote fetch. -/
theorem get_cookies_failure_frame_witness :
    (getCookies stExample "douyin" true 0 .failure).fst = none ∧
    (getCookies stExample "douyin" true 0 .failure).snd = stExample :=
  get_cookies_failure_frame stExample "douyin" true 0 .failure (Or.inl rfl)
    (Or.inr (Or.inr (Or.inl rfl)))

/-- Claim C9: for a platform absent from the platform-to-domain mapping, the
resolved target domain is the platform name with `".com"` appended, and a
forced resolution proceeds with exactly that domain (matching and
formatting against it) rather than failing. -/
theorem unmapped_platform_fallback_domain (st : ManagerState) (p : String)
    (h : st.domainMapping.lookup p = none) :
    getDomainForPlatform st p = p ++ ".com" ∧
    ∀ now data, st.enabled = true → st.clientInitialized = true → data ≠ ([] : AllCookies) →
      (getCookies st p true now (.ok data)).fst =
        (if (collectMatched (p ++ ".com") data).isEmpty then none
         else some (formatCookiesForRequests (collectMatched (p ++ ".com") data))) := by
  have hdom : getDomainForPlatform st p = p ++ ".com" := by
    simp [getDomainForPlatform, h]
  refine ⟨hdom, ?_⟩
  intro now data he hc hd
  have hne : data.isEmpty = false := by
    cases data with
    | nil => exact absurd rfl hd
    | cons a t => rfl
  simp only [getCookies, he, hc, hne, hdom, Bool.not_true, Bool.false_and,
    Bool.false_eq_true, if_false]
  split <;> rfl

/-- Claim C9, witness: the fallback domain for an unmapped platform. -/
theorem unmapped_platform_fallback_domain_witness :
    getDomainForPlatform stExample "kuaishou" = "kuaishou" ++ ".com" :=
  (unmapped_platform_fallback_domain stExample "kuaishou" (by decide)).left

theorem getCookies_static_fields (st : ManagerState) (p : String) (force : Bool) (now : Int)
    (fetch : FetchOutcome) :
    (getCookies st p force now fetch).snd.enabled = st.enabled ∧
    (getCookies st p force now fetch).snd.clientInitialized = st.clientInitialized ∧
    (getCookies st p force now fetch).snd.cacheTtl = st.cacheTtl ∧
    (getCookies st p force now fetch).snd.domainMapping = st.domainMapping := by
  unfold getCookies
  dsimp only
  repeat' split
  all_goals exact ⟨rfl, rfl, rfl, rfl⟩

theorem getCookies_cache_frame (st : ManagerState) (platform : String) (force : Bool)
    (now : Int) (fetch : FetchOutcome) (q : String) (hq : q ≠ platform) :
    (getCookies st platform force now fetch).snd.cache.lookup q = st.cache.lookup q ∧
    (getCookies st platform force now fetch).snd.cacheTimestamps.lookup q =
      st.cacheTimestamps.lookup q := by
  unfold getCookies
  dsimp only
  repeat' split
  all_goals simp [lookup_dictSet_ne _ _ _ _ hq]

theorem getCookies_forced_fst_congr (stRef st : ManagerState) (p : String) (now : Int)
    (fetch : FetchOutcome)
    (he : st.enabled = stRef.enabled) (hcl : st.clientInitialized = stRef.clientInitialized)
    (hd : st.domainMapping = stRef.domainMapping) :
    (getCookies st p true now fetch).fst = (getCookies stRef p true now fetch).fst := by
  have hdom : getDomainForPlatform st p = getDomainForPlatform stRef p := by
    unfold getDomainForPlatform
    rw [hd]
  cases he2 : stRef.enabled with
  | false => simp [getCookies, he, he2]
  | true =>
    cases hcl2 : stRef.clientInitialized with
    | false => simp [getCookies, he, hcl, he2, hcl2]
    | true =>
      cases fetch with
      | raises => simp [getCookies, he, hcl, he2, hcl2]
      | failure => simp [getCookies, he, hcl, he2, hcl2]
      | ok data =>
        by_cases hdata : data = []
        · simp [getCookies, he, hcl, he2, hcl2, hdata]
        · by_cases hmatch : collectMatched (getDomainForPlatform stRef p) data = []
          · simp [getCookies, he, hcl, he2, hcl2, hdata, hdom, hmatch]
          · simp [getCookies, he, hcl, he2, hcl2, hdata, hdom, hmatch]

theorem configFileMap_inj (p q path : String)
    (hp : configFileMap p = some path) (hq : configFileMap q = some path) : p = q := by
  unfold configFileMap at hp hq
  split_ifs at hp hq <;> simp_all
  all_goals exact absurd (hp.trans hq.symm) (by decide)

theorem updateConfigFile_fst_congr (fs fsAlt : Fs) (p c : String) (wf : Option Nat)
    (h : ∀ path, configFileMap p = some path → fsAlt.lookup path = fs.lookup path) :
    (updateConfigFile fsAlt p c wf).fst = (updateConfigFile fs p c wf).fst := by
  unfold updateConfigFile
  cases hm : configFileMap p with
  | none => rfl
  | some path =>
    dsimp only
    rw [h path hm]
    cases fs.lookup path with
    | none => rfl
    | some content =>
      dsimp only
      cases yamlLoad content with
      | none => rfl
      | some cfg =>
        dsimp only
        cases setCookieInConfig p cfg c with
        | none => rfl
        | some updated =>
          dsimp only
          cases wf <;> rfl

theorem updateConfigFile_lookup_other (fs : Fs) (p c : String) (wf : Option Nat) (q : String)
    (h : ∀ path, configFileMap p = some path → path ≠ q) :
    (updateConfigFile fs p c wf).snd.lookup q = fs.lookup q := by
  unfold updateConfigFile
  cases hm : configFileMap p with
  | none => rfl
  | some path =>
    dsimp only
    have hpq : q ≠ path := Ne.symm (h path hm)
    cases fs.lookup path with
    | none => rfl
    | some content =>
      dsimp only
      cases yamlLoad content with
      | none => rfl
      | some cfg =>
        dsimp only
        cases setCookieInConfig p cfg c with
        | none => rfl
        | some updated =>
          dsimp only
          cases wf with
          | none => exact lookup_dictSet_ne path q _ fs hpq
          | some k => exact lookup_dictSet_ne path q _ fs hpq

theorem lookup_eq_none_of_not_mem_keys {β : Type} (l : List (String × β)) (p : String)
    (h : p ∉ l.map Prod.fst) : l.lookup p = none := by
  induction l with
  | nil => rfl
  | cons kv rest ih =>
    obtain ⟨k, v⟩ := kv
    simp only [List.map_cons, List.mem_cons, not_or] at h
    have hb : (p == k) = false := by simp [h.left]
    simp [List.lookup, hb, ih h.right]

theorem lookup_map_of_mem {β : Type} (l : List (String × String)) (f : String → β)
    (p d : String) (h : (p, d) ∈ l) :
    (l.map (fun pd => (pd.fst, f pd.fst))).lookup p = some (f p) := by
  induction l with
  | nil => cases h
  | cons kv rest ih =>
    obtain ⟨k, v⟩ := kv
    by_cases hk : p = k
    · subst hk
      simp [List.lookup]
    · have hmem : (p, d) ∈ rest := by
        rcases List.mem_cons.mp h with heq | hmem
        · exact absurd (congrArg Prod.fst heq) hk
        · exact hmem
      have hb : (p == k) = false := by simp [hk]
      simp [List.lookup, hb, ih hmem]

theorem refreshLoop_keys (now : Int) (fetch : String → FetchOutcome)
    (writeFail : String → Option Nat) (platforms : List (String × String))
    (st : ManagerState) (fs : Fs) (acc : List (String × Bool)) :
    ((refreshLoop now fetch writeFail platforms st fs acc).fst).map Prod.fst =
      acc.map Prod.fst ++ platforms.map Prod.fst := by
  induction platforms generalizing st fs acc with
  | nil => simp [refreshLoop]
  | cons pd rest ih =>
    obtain ⟨platform, dom⟩ := pd
    unfold refreshLoop
    cases hg : getCookies st platform true now (fetch platform) with
    | mk copt st' =>
      cases copt with
      | none =>
        dsimp only
        rw [ih]
        simp
      | some cookie =>
        dsimp only
        by_cases hemp : cookie.isEmpty = true
        · rw [if_pos hemp, ih]
          simp
        · rw [if_neg hemp]
          cases hu : updateConfigFile fs platform cookie (writeFail platform) with
          | mk success fs' =>
            dsimp only
            rw [ih]
            simp

theorem refreshLoop_results_spec (now : Int) (fetch : String → FetchOutcome)
    (writeFail : String → Option Nat) (platforms : List (String × String))
    (stRef : ManagerState) (fsRef : Fs) (st : ManagerState) (fs : Fs)
    (acc : List (String × Bool))
    (he : st.enabled = stRef.enabled) (hcl : st.clientInitialized = stRef.clientInitialized)
    (hd : st.domainMapping = stRef.domainMapping)
    (hfs : ∀ pd ∈ platforms, ∀ path, configFileMap pd.fst = some path →
      fs.lookup path = fsRef.lookup path)
    (hnodup : (platforms.map Prod.fst).Nodup) :
    (refreshLoop now fetch writeFail platforms st fs acc).fst =
      acc ++ platforms.map
        (fun pd => (pd.fst, refreshOneSuccess stRef fsRef now fetch writeFail pd.fst)) := by
  induction platforms generalizing st fs acc with
  | nil => simp [refreshLoop]
  | cons pd rest ih =>
    obtain ⟨platform, dom⟩ := pd
    rw [List.map_cons, List.nodup_cons] at hnodup
    obtain ⟨hnotin, hnodup'⟩ := hnodup
    have hfstEq : (getCookies st platform true now (fetch platform)).fst =
        (getCookies stRef platform true now (fetch platform)).fst :=
      getCookies_forced_fst_congr stRef st platform now (fetch platform) he hcl hd
    have hstatic := getCookies_static_fields st platform true now (fetch platform)
    unfold refreshLoop
    cases hg : getCookies st platform true now (fetch platform) with
    | mk copt st' =>
      rw [hg] at hfstEq hstatic
      dsimp only at hfstEq hstatic ⊢
      have he' : st'.enabled = stRef.enabled := hstatic.1.trans he
      have hcl' : st'.clientInitialized = stRef.clientInitialized := hstatic.2.1.trans hcl
      have hd' : st'.domainMapping = stRef.domainMapping := hstatic.2.2.2.trans hd
      have hfsRest : ∀ pd ∈ rest, ∀ path, configFileMap pd.fst = some path →
          fs.lookup path = fsRef.lookup path :=
        fun pd hpd => hfs pd (List.mem_cons_of_mem _ hpd)
      cases copt with
      | none =>
        dsimp only
        rw [ih st' fs _ he' hcl' hd' hfsRest hnodup']
        have hone : refreshOneSuccess stRef fsRef now fetch writeFail platform = false := by
          unfold refreshOneSuccess
          rw [← hfstEq]
        simp [hone]
      | some cookie =>
        dsimp only
        by_cases hemp : cookie.isEmpty = true
        · rw [if_pos hemp]
          rw [ih st' fs _ he' hcl' hd' hfsRest hnodup']
          have hone : refreshOneSuccess stRef fsRef now fetch writeFail platform = false := by
            unfold refreshOneSuccess
            rw [← hfstEq]
            dsimp only
            rw [if_pos hemp]
          simp [hone]
        · rw [if_neg hemp]
          cases hu : updateConfigFile fs platform cookie (writeFail platform) with
          | mk success fs' =>
            dsimp only
            have hfs' : ∀ pd ∈ rest, ∀ path, configFileMap pd.fst = some path →
                fs'.lookup path = fsRef.lookup path := by
              intro pd hpd path hpath
              have hne : pd.fst ≠ platform := by
                intro hcontra
                have hmm : pd.fst ∈ rest.map Prod.fst := List.mem_map_of_mem Prod.fst hpd
                rw [hcontra] at hmm
                exact hnotin hmm
              have hstep : (updateConfigFile fs platform cookie (writeFail platform)).snd.lookup
                  path = fs.lookup path := by
                refine updateConfigFile_lookup_other fs platform cookie (writeFail platform)
                  path ?_
                intro path2 hpath2 hcontra
                subst hcontra
                exact hne (configFileMap_inj pd.fst platform path2 hpath hpath2)
              rw [hu] at hstep
              exact hstep.trans (hfsRest pd hpd path hpath)
            rw [ih st' fs' _ he' hcl' hd' hfs' hnodup']
            have hone : refreshOneSuccess stRef fsRef now fetch writeFail platform = success := by
              unfold refreshOneSuccess
              rw [← hfstEq]
              dsimp only
              rw [if_neg hemp]
              have hcongr := updateConfigFile_fst_congr fsRef fs platform cookie
                (writeFail platform) (hfs (platform, dom) (List.mem_cons_self _ _))
              have hfst : (updateConfigFile fs platform cookie (writeFail platform)).fst =
                  success := by rw [hu]
              exact hcongr.symm.trans hfst
            simp [hone]

theorem refreshLoop_preserves (now : Int) (fetch : String → FetchOutcome)
    (writeFail : String → Option Nat) (platforms : List (String × String))
    (st : ManagerState) (fs : Fs) (acc : List (String × Bool)) (p : String)
    (hp : p ∉ platforms.map Prod.fst) :
    (refreshLoop now fetch writeFail platforms st fs acc).snd.fst.cache.lookup p =
      st.cache.lookup p ∧
    (refreshLoop now fetch writeFail platforms st fs acc).snd.fst.cacheTimestamps.lookup p =
      st.cacheTimestamps.lookup p ∧
    ∀ path, configFileMap p = some path →
      (refreshLoop now fetch writeFail platforms st fs acc).snd.snd.lookup path =
        fs.lookup path := by
  induction platforms generalizing st fs acc with
  | nil => exact ⟨rfl, rfl, fun path hpath => rfl⟩
  | cons pd rest ih =>
    obtain ⟨platform, dom⟩ := pd
    rw [List.map_cons] at hp
    have hpp : p ≠ platform := fun hcontra => hp (hcontra ▸ List.mem_cons_self _ _)
    have hrest : p ∉ rest.map Prod.fst := fun hmem => hp (List.mem_cons_of_mem _ hmem)
    have hframe := getCookies_cache_frame st platform true now (fetch platform) p hpp
    unfold refreshLoop
    cases hg : getCookies st platform true now (fetch platform) with
    | mk copt st' =>
      rw [hg] at hframe
      dsimp only at hframe ⊢
      cases copt with
      | none =>
        dsimp only
        obtain ⟨ih1, ih2, ih3⟩ := ih st' fs _ hrest
        exact ⟨ih1.trans hframe.1, ih2.trans hframe.2, ih3⟩
      | some cookie =>
        dsimp only
        by_cases hemp : cookie.isEmpty = true
        · rw [if_pos hemp]
          obtain ⟨ih1, ih2, ih3⟩ := ih st' fs _ hrest
          exact ⟨ih1.trans hframe.1, ih2.trans hframe.2, ih3⟩
        · rw [if_neg hemp]
          cases hu : updateConfigFile fs platform cookie (writeFail platform) with
          | mk success fs' =>
            dsimp only
            obtain ⟨ih1, ih2, ih3⟩ := ih st' fs' _ hrest
            refine ⟨ih1.trans hframe.1, ih2.trans hframe.2, ?_⟩
            intro path hpath
            have hstep : (updateConfigFile fs platform cookie (writeFail platform)).snd.lookup
                path = fs.lookup path := by
              refine updateConfigFile_lookup_other fs platform cookie (writeFail platform)
                path ?_
              intro path2 hpath2 hcontra
              subst hcontra
              exact hpp (configFileMap_inj p platform path2 hpath hpath2)
            rw [hu] at hstep
            exact (ih3 path hpath).trans hstep

/-- Claim C6: `refresh_all_cookies` iterates exactly the platforms of the
platform-to-domain mapping, in order, producing one boolean entry per
platform; each entry is computed from the pre-loop state and that
platform's own fetch and persist outcomes alone (so one platform's failure
never aborts or alters another's attempt or recorded result), and an entry
is `true` iff the forced resolution produced a non-empty cookie string and
the configuration-file persist succeeded. -/
theorem refresh_all_success_map (st : ManagerState) (fs : Fs) (now : Int)
    (fetch : String → FetchOutcome) (writeFail : String → Option Nat)
    (hnodup : (st.domainMapping.map Prod.fst).Nodup) :
    (refreshAllCookies st fs now fetch writeFail).fst =
      st.domainMapping.map
        (fun pd => (pd.fst, refreshOneSuccess st fs now fetch writeFail pd.fst)) ∧
    ∀ platform, refreshOneSuccess st fs now fetch writeFail platform = true ↔
      ∃ cookie, (getCookies st platform true now (fetch platform)).fst = some cookie ∧
        cookie ≠ "" ∧
        (updateConfigFile fs platform cookie (writeFail platform)).fst = true := by
  constructor
  · have hres := refreshLoop_results_spec now fetch writeFail st.domainMapping st fs st fs []
      rfl rfl rfl (fun pd hpd path hpath => rfl) hnodup
    simpa [refreshAllCookies] using hres
  · intro platform
    unfold refreshOneSuccess
    cases hg : (getCookies st platform true now (fetch platform)).fst with
    | none => simp
    | some cookie =>
      dsimp only
      by_cases hemp : cookie.isEmpty = true
      · obtain rfl := (String.isEmpty_iff cookie).mp hemp
        rw [if_pos hemp]
        simp
      · rw [if_neg hemp]
        have hne : cookie ≠ "" := fun hcontra =>
          hemp ((String.isEmpty_iff cookie).mpr hcontra)
        constructor
        · intro hu
          exact ⟨cookie, rfl, hne, hu⟩
        · rintro ⟨c, hc, -, hu⟩
          injection hc with hc
          exact hc ▸ hu

/-- Claim C6, witness: a concrete one-platform mapping with a failing fetch. -/
theorem refresh_all_success_map_witness :
    (refreshAllCookies stExample [] 0 (fun _ => FetchOutcome.failure) (fun _ => none)).fst =
      stExample.domainMapping.map
        (fun pd => (pd.fst, refreshOneSuccess stExample [] 0
          (fun _ => FetchOutcome.failure) (fun _ => none) pd.fst)) :=
  (refresh_all_success_map stExample [] 0 (fun _ => FetchOutcome.failure) (fun _ => none)
    (by decide)).left

/-- Claim C10: `update_config_file` succeeds only for `"douyin"`,
`"tiktok"` and `"bilibili"`: for every other platform name it returns
failure with the file system untouched (the platform has no entry in the
config-file map, so no file is read, parsed or written), and a refresh of
such a platform — even one present in the platform-to-domain mapping whose
cookie resolution succeeds — always records `false` in the success map. -/
theorem update_config_unknown_platform (fs : Fs) (p : String)
    (hp : ¬(p = "douyin" ∨ p = "tiktok" ∨ p = "bilibili")) :
    (∀ cookie wf, updateConfigFile fs p cookie wf = (false, fs)) ∧
    ∀ st now (fetch : String → FetchOutcome) (writeFail : String → Option Nat),
      (st.domainMapping.map Prod.fst).Nodup →
      ∀ d, (p, d) ∈ st.domainMapping →
        (refreshAllCookies st fs now fetch writeFail).fst.lookup p = some false := by
  push_neg at hp
  have hmap : configFileMap p = none := by
    simp [configFileMap, hp.1, hp.2.1, hp.2.2]
  have hfirst : ∀ cookie wf, updateConfigFile fs p cookie wf = (false, fs) := by
    intro cookie wf
    unfold updateConfigFile
    rw [hmap]
  refine ⟨hfirst, ?_⟩
  intro st now fetch writeFail hnodup d hmem
  have hres := refreshLoop_results_spec now fetch writeFail st.domainMapping st fs st fs []
    rfl rfl rfl (fun pd hpd path hpath => rfl) hnodup
  have hone : refreshOneSuccess st fs now fetch writeFail p = false := by
    unfold refreshOneSuccess
    cases (getCookies st p true now (fetch p)).fst with
    | none => rfl
    | some cookie =>
      dsimp only
      by_cases hemp : cookie.isEmpty = true
      · rw [if_pos hemp]
      · rw [if_neg hemp, hfirst cookie (writeFail p)]
  unfold refreshAllCookies
  rw [hres, List.nil_append,
    lookup_map_of_mem st.domainMapping (refreshOneSuccess st fs now fetch writeFail) p d hmem,
    hone]

/-- Claim C10, witness: an unknown platform's persist fails and leaves the
file system unchanged. -/
theorem update_config_unknown_platform_witness :
    updateConfigFile [] "youtube" "c=1" none = (false, []) :=
  (update_config_unknown_platform [] "youtube" (by decide)).left "c=1" none

/-- Claim C3, amended: `refresh_all_cookies` never records a result, creates
a cache entry, or writes a configuration file for a platform absent from
the platform-to-domain mapping (it iterates only mapped platforms). The
original claim fails for the other two operations: a direct `get_cookies`
call on an unmapped platform falls back to the `"<platform>.com"` domain
and can create a cache entry, and `update_config_file` writes the file of
any of the three known platforms whether or not it is mapped. -/
theorem refresh_all_skips_unmapped_platform (st : ManagerState) (fs : Fs) (now : Int)
    (fetch : String → FetchOutcome) (writeFail : String → Option Nat) (p : String)
    (hp : p ∉ st.domainMapping.map Prod.fst) :
    (refreshAllCookies st fs now fetch writeFail).fst.lookup p = none ∧
    (refreshAllCookies st fs now fetch writeFail).snd.fst.cache.lookup p =
      st.cache.lookup p ∧
    (refreshAllCookies st fs now fetch writeFail).snd.fst.cacheTimestamps.lookup p =
      st.cacheTimestamps.lookup p ∧
    ∀ path, configFileMap p = some path →
      (refreshAllCookies st fs now fetch writeFail).snd.snd.lookup path =
        fs.lookup path := by
  have hpres := refreshLoop_preserves now fetch writeFail st.domainMapping st fs [] p hp
  have hkeys := refreshLoop_keys now fetch writeFail st.domainMapping st fs []
  refine ⟨?_, hpres.1, hpres.2.1, hpres.2.2⟩
  apply lookup_eq_none_of_not_mem_keys
  unfold refreshAllCookies
  rw [hkeys]
  simpa using hp

/-- Claim C3, amended, witness: a platform absent from a concrete mapping
gets no result entry. -/
theorem refresh_all_skips_unmapped_platform_witness :
    (refreshAllCookies stExample [] 0 (fun _ => FetchOutcome.failure)
      (fun _ => none)).fst.lookup "kuaishou" = none :=
  (refresh_all_skips_unmapped_platform stExample [] 0 (fun _ => FetchOutcome.failure)
    (fun _ => none) "kuaishou" (by decide)).left
